import Mathlib

/-!
Shallow embedding of the diff-and-validation engine of
`src/ops/external-prs/src/ossd/index.ts` (class `OSSDirectoryPullRequest`),
together with theorems settling the specification claims about it.

Modelling conventions:
* JavaScript values that may be thrown are modelled with `Except String`;
  an `await` on a rejected promise or a property read on `undefined`
  surfaces as `Except.error`.
* The `Record<string, T>` objects of the source are modelled as
  `String → Option T`, updated by function override.
* The external validator objects (`EVMNetworkValidator`) are records of
  three fallible boolean predicates, exactly the capabilities the source
  consumes (`isEOA`, `isContract`, `isDeployer`).
-/

/-- One entry of `changes.artifacts.toValidate.blockchain`
(`BlockchainValidationItem` in the source). -/
structure ValidationItem where
  address : String
  tags : List String
  networks : List String
deriving DecidableEq, Repr

/-- One entry pushed onto `validationErrors` in
`OSSDirectoryPullRequest.validate` (`{ address, error }` in the source:
note the record carries no network field). -/
structure ValidationError where
  address : String
  error : String
deriving DecidableEq, Repr

/-- The capability interface of an external `EVMNetworkValidator`:
three async boolean predicates over an address, each of which may reject
(modelled by `Except.error`). -/
structure Validator where
  isEOA : String → Except String Bool
  isContract : String → Except String Bool
  isDeployer : String → Except String Bool

/-- `validator.<pred>(address)` where `validator` is the result of the
lookup `this.validators[network]`: when the lookup produced `undefined`
(`none`), reading the method throws a `TypeError`. -/
def callPred (v : Option Validator) (sel : Validator → String → Except String Bool)
    (addr : String) : Except String Bool :=
  match v with
  | none => Except.error "TypeError: Cannot read properties of undefined"
  | some validator => sel validator addr

/-- One of the three `if (item.tags.indexOf(tag) !== -1) { ... }` blocks of
`validate`: when the tag is present, await the predicate and push one
`{ address, error: reason }` failure when the result is not truthy. -/
def runTagCheck (v : Option Validator) (item : ValidationItem) (tag reason : String)
    (sel : Validator → String → Except String Bool) :
    Except String (List ValidationError) :=
  if item.tags.contains tag then
    match callPred v sel item.address with
    | Except.error e => Except.error e
    | Except.ok b =>
        if b then Except.ok [] else Except.ok [⟨item.address, reason⟩]
  else Except.ok []

/-- The body of the `for (const network of item.networks)` loop of
`validate`: look the network up in `this.validators`, then run the three
tag checks in source order (eoa, contract, deployer). -/
def validateNetwork (V : String → Option Validator) (item : ValidationItem)
    (network : String) : Except String (List ValidationError) :=
  match runTagCheck (V network) item "eoa" "is not an EOA" Validator.isEOA with
  | Except.error e => Except.error e
  | Except.ok fe =>
    match runTagCheck (V network) item "contract" "is not a Contract"
        Validator.isContract with
    | Except.error e => Except.error e
    | Except.ok fc =>
      match runTagCheck (V network) item "deployer" "is not a Deployer"
          Validator.isDeployer with
      | Except.error e => Except.error e
      | Except.ok fd => Except.ok (fe ++ fc ++ fd)

/-- The networks loop of `validate` for a single item, accumulating the
pushes to `validationErrors` in order. -/
def validateItemNetworks (V : String → Option Validator) (item : ValidationItem) :
    List String → Except String (List ValidationError)
  | [] => Except.ok []
  | n :: rest =>
      match validateNetwork V item n with
      | Except.error e => Except.error e
      | Except.ok fs =>
          match validateItemNetworks V item rest with
          | Except.error e => Except.error e
          | Except.ok rs => Except.ok (fs ++ rs)

/-- Processing of one element of `this.changes.artifacts.toValidate.blockchain`. -/
def validateItem (V : String → Option Validator) (item : ValidationItem) :
    Except String (List ValidationError) :=
  validateItemNetworks V item item.networks

/-- The `for (const item of this.changes.artifacts.toValidate.blockchain)`
loop of `validate`: items are processed in sequence and their failures are
appended to the shared `validationErrors` array; a thrown error propagates. -/
def runValidation (V : String → Option Validator) :
    List ValidationItem → Except String (List ValidationError)
  | [] => Except.ok []
  | item :: rest =>
      match validateItem V item with
      | Except.error e => Except.error e
      | Except.ok fs =>
          match runValidation V rest with
          | Except.error e => Except.error e
          | Except.ok rs => Except.ok (fs ++ rs)

/-- JavaScript truthiness of an optional environment-variable string:
`undefined` and the empty string are falsy. -/
def truthy : Option String → Bool
  | none => false
  | some s => !(s == "")

/-- `OSSDirectoryPullRequest.loadValidators`: requires truthy
`OPTIMISM_RPC_URL` and `MAINNET_RPC_URL`, then registers validators for
exactly the keys "optimism" and "mainnet" (the record starts empty in the
constructor). The two validator constructors are injected collaborators. -/
def loadValidators (optimismRpc mainnetRpc : Option String)
    (optimismV mainnetV : String → Validator) :
    Except String (String → Option Validator) :=
  if !(truthy optimismRpc) || !(truthy mainnetRpc) then
    Except.error "RPC URLs are required to do validation"
  else
    Except.ok (fun network =>
      if network = "optimism" then some (optimismV (optimismRpc.getD ""))
      else if network = "mainnet" then some (mainnetV (mainnetRpc.getD ""))
      else none)

/-- Observable outcome of `OSSDirectoryPullRequest.validate`: the collected
`validationErrors` and whether a validation-errors comment was left on the
PR (`validationErrors.length !== 0`). -/
structure ValidateResult where
  validationErrors : List ValidationError
  commented : Bool
deriving DecidableEq, Repr

/-- `OSSDirectoryPullRequest.validate`: load the validators (which may
throw), run the validation loop (which may throw), and leave a comment iff
the collected failure list is non-empty. -/
def validateOp (optimismRpc mainnetRpc : Option String)
    (optimismV mainnetV : String → Validator)
    (items : List ValidationItem) : Except String ValidateResult :=
  match loadValidators optimismRpc mainnetRpc optimismV mainnetV with
  | Except.error e => Except.error e
  | Except.ok V =>
      match runValidation V items with
      | Except.error e => Except.error e
      | Except.ok errs => Except.ok ⟨errs, errs.length != 0⟩

/-- One row of the `SELECT * FROM artifacts_summary` result, as consumed by
the summary-building loop (`{ type, status, count }`; the row also carries a
`unique_count` the loop never reads). -/
structure SummaryRow where
  type : String
  status : String
  count : Nat
deriving DecidableEq, Repr

/-- The `Summary` record of the source. -/
structure Summary where
  added : Nat
  removed : Nat
  existing : Nat
deriving DecidableEq, Repr

/-- Override update of a JavaScript record. -/
def updateMap (m : String → Option Summary) (k : String) (v : Summary) :
    String → Option Summary :=
  fun t => if t = k then some v else m t

/-- The body of the `for (const row of artifactsSummary)` loop in
`OSSDirectoryPullRequest.initialize`, including the faulty branch
`else if (row.type == "REMOVED")` that compares the row TYPE (not its
status) against "REMOVED". -/
def summarizeRow (m : String → Option Summary) (row : SummaryRow) :
    String → Option Summary :=
  match m row.type with
  | none =>
      updateMap m row.type
        { added := if row.status = "ADDED" then row.count else 0
          removed := if row.status = "REMOVED" then row.count else 0
          existing := if row.status = "EXISTING" then row.count else 0 }
  | some s =>
      if row.status = "ADDED" then
        updateMap m row.type { s with added := row.count }
      else if row.type = "REMOVED" then
        updateMap m row.type { s with removed := row.count }
      else
        updateMap m row.type { s with existing := row.count }

/-- The whole summary-building loop of `initialize`: fold the rows of
`artifacts_summary` into the (initially empty) `summaries` record. -/
def buildSummaries (rows : List SummaryRow) : String → Option Summary :=
  rows.foldl summarizeRow (fun _ => none)

/-- The `ProjectSummary` row type of the source (shape of the rows returned
by the `changed_projects` query and stored in `changes.projects`). -/
structure ProjectSummary where
  project_slug : String
  status : String
  blockchain_added : Nat
  blockchain_removed : Nat
  blockchain_unchanged : Nat
  blockchain_unique_added : Nat
  blockchain_unique_removed : Nat
  blockchain_unique_unchanged : Nat
  code_added : Nat
  code_removed : Nat
  code_unchanged : Nat
  package_added : Nat
  package_removed : Nat
  package_unchanged : Nat
deriving DecidableEq, Repr

/-- One row of the `unchanged_projects` query result, as cast in
`OSSDirectoryPullRequest.list` (`{ total: number }`). -/
structure UnchangedProjectRow where
  total : Nat
deriving DecidableEq, Repr

/-- The three project counts rendered into the `list-changes` PR comment. -/
structure ProjectCounts where
  added : Nat
  removed : Nat
  unchanged : Nat
deriving DecidableEq, Repr

/-- The project-count computation of `OSSDirectoryPullRequest.list`:
`unchangedProjectsCount` is `unchangedProjects.length === 0 ? 0 :
unchangedProjects.length`, `updatedProjectsCount` is
`this.changes.projects.length`, and the comment reports
`{ added: updatedProjectsCount, removed: 0, unchanged: unchangedProjectsCount }`. -/
def listProjectCounts (unchangedProjects : List UnchangedProjectRow)
    (changedProjects : List ProjectSummary) : ProjectCounts :=
  { added := changedProjects.length
    removed := 0
    unchanged :=
      if unchangedProjects.length = 0 then 0 else unchangedProjects.length }

/-- The `BlockchainStatus` row type of the source: one classified
blockchain artifact row with its four independent status dimensions. -/
structure BlockchainStatus where
  project_slug : String
  address : String
  tag : String
  network : String
  project_relation_status : String
  address_status : String
  network_status : String
  network_tag_status : String
deriving DecidableEq, Repr

/-- Modelled from the spec: the query
`changed_blockchain_artifacts_to_validate.sql` consumed by `initialize` is
not under `src/`; spec §4.4 defines the selection as every classified
blockchain row whose `address_status`, `network_status`, or
`network_tag_status` is ADDED. -/
def selectForValidation (rows : List BlockchainStatus) : List BlockchainStatus :=
  rows.filter (fun r =>
    r.address_status == "ADDED" || r.network_status == "ADDED" ||
      r.network_tag_status == "ADDED")

/-- Modelled from the spec: the status-classification queries
(`blockchain_status.sql`, `code_status.sql`, `package_status.sql`,
`project_status.sql`) are not under `src/`; spec §4.2 classifies a key as
ADDED when it is in the PR key set but not the main key set, REMOVED when
in main but not PR, and EXISTING otherwise (the intersection). -/
def classifyKey (mainKeys prKeys : List String) (k : String) : String :=
  if prKeys.contains k && !(mainKeys.contains k) then "ADDED"
  else if mainKeys.contains k && !(prKeys.contains k) then "REMOVED"
  else "EXISTING"

/-- Modelled from the spec: classification of a whole artifact population,
spec §4.2 — duplicate keys within one snapshot collapse before set
comparison, and every key of either snapshot receives exactly one status. -/
def classifySnapshot (mainKeys prKeys : List String) : List (String × String) :=
  ((mainKeys ++ prKeys).dedup).map (fun k => (k, classifyKey mainKeys prKeys k))

/-- Modelled from the spec: the `artifacts_summary.sql` query consumed by
`initialize` is not under `src/`; spec §4.3 aggregates by counting rows per
status, yielding one `(type, status, count)` row per status that occurs. -/
def summaryRowsFor (t : String) (classified : List (String × String)) :
    List SummaryRow :=
  ["ADDED", "REMOVED", "EXISTING"].filterMap (fun st =>
    let c := (classified.filter (fun p => p.2 == st)).length
    if c == 0 then none else some ⟨t, st, c⟩)

/-- A validator whose three predicates are total boolean functions (a
validator whose RPC calls always resolve). -/
structure PureValidator where
  isEOA : String → Bool
  isContract : String → Bool
  isDeployer : String → Bool

/-- Lift a pure validator to the fallible capability interface. -/
def liftV (p : PureValidator) : Validator :=
  ⟨fun a => Except.ok (p.isEOA a), fun a => Except.ok (p.isContract a),
   fun a => Except.ok (p.isDeployer a)⟩

/-- The failures one network pass over an item produces under a pure
validator: one `{ address, reason }` entry per tag-matched predicate that
returns false, in source order (eoa, contract, deployer). -/
def pureNetworkFailures (p : PureValidator) (item : ValidationItem) :
    List ValidationError :=
  (if item.tags.contains "eoa" && !(p.isEOA item.address) then
    [⟨item.address, "is not an EOA"⟩] else []) ++
  (if item.tags.contains "contract" && !(p.isContract item.address) then
    [⟨item.address, "is not a Contract"⟩] else []) ++
  (if item.tags.contains "deployer" && !(p.isDeployer item.address) then
    [⟨item.address, "is not a Deployer"⟩] else [])

/-- Program-order failures of one item across its network list, under a
registry of pure validators. -/
def pureItemFailures (P : String → Option PureValidator) (item : ValidationItem) :
    List String → List ValidationError
  | [] => []
  | n :: rest =>
      (match P n with
       | some p => pureNetworkFailures p item
       | none => []) ++ pureItemFailures P item rest

/-- Program-order failures of a whole item list (items in order, each
item's networks in order, tags in order eoa, contract, deployer). -/
def pureFailures (P : String → Option PureValidator) :
    List ValidationItem → List ValidationError
  | [] => []
  | item :: rest =>
      pureItemFailures P item item.networks ++ pureFailures P rest

/-- A pure validator answering `b` to every predicate. -/
def pvConst (b : Bool) : PureValidator := ⟨fun _ => b, fun _ => b, fun _ => b⟩

/-- A pure validator that fails exactly the contract check. -/
def pvContractFalse : PureValidator := ⟨fun _ => true, fun _ => false, fun _ => true⟩

/-- A validator whose `isEOA` RPC call rejects; the other predicates resolve. -/
def vEOAFails : Validator :=
  ⟨fun _ => Except.error "RPC failure", fun _ => Except.ok true,
   fun _ => Except.ok true⟩

/-- Registry with a rejecting validator on "optimism" and an all-false pure
validator on "mainnet". -/
def vRegMixed : String → Option Validator :=
  fun n =>
    if n = "optimism" then some vEOAFails
    else if n = "mainnet" then some (liftV (pvConst false)) else none

/-- Registry whose contract check fails on "optimism" and passes on "mainnet". -/
def vRegFailOpt : String → Option Validator :=
  fun n =>
    if n = "optimism" then some (liftV pvContractFalse)
    else if n = "mainnet" then some (liftV (pvConst true)) else none

/-- Registry whose contract check passes on "optimism" and fails on "mainnet". -/
def vRegFailMain : String → Option Validator :=
  fun n =>
    if n = "optimism" then some (liftV (pvConst true))
    else if n = "mainnet" then some (liftV pvContractFalse) else none

/-- Registry with an all-false validator on both supported networks. -/
def vRegFalse : String → Option Validator :=
  fun n =>
    if n = "optimism" || n = "mainnet" then some (liftV (pvConst false))
    else none

/-- Pure registry with an all-false validator on "mainnet" only. -/
def pRegMainFalse : String → Option PureValidator :=
  fun n => if n = "mainnet" then some (pvConst false) else none

/-- A contract-tagged validation item on both supported networks. -/
def itemDEF : ValidationItem := ⟨"0xDEF", ["contract"], ["optimism", "mainnet"]⟩

/-- A classified blockchain row whose only non-EXISTING status dimension is
a REMOVED `address_status` (spec §8, Scenario A). -/
def rowRemovedOnly : BlockchainStatus :=
  ⟨"p1", "0xABC", "eoa", "optimism", "EXISTING", "REMOVED", "EXISTING",
   "EXISTING"⟩

/-- Stated from the spec's words, for comparison with the code: the order
the spec claims for the final failure list — by address, then by reason
(strings compared lexicographically on their character sequences). -/
def failureLe (a b : ValidationError) : Prop :=
  a.address.data < b.address.data ∨
    (a.address = b.address ∧ ¬ b.error.data < a.error.data)

instance (a b : ValidationError) : Decidable (failureLe a b) := by
  unfold failureLe
  infer_instance

/-- C1: the code evaluated at the failing input. Feeding the summary rows
(BLOCKCHAIN, ADDED, 1), (BLOCKCHAIN, REMOVED, 2), (BLOCKCHAIN, EXISTING, 3)
to the summary-building loop yields added 1, removed 0, existing 3 — not
the per-status counts added 1, removed 2, existing 3 the claim requires:
the faulty `row.type == "REMOVED"` branch routes the REMOVED count into
the existing bucket, where the later EXISTING row overwrites it. -/
theorem buildSummaries_removed_misrouted :
    buildSummaries
      [⟨"BLOCKCHAIN", "ADDED", 1⟩, ⟨"BLOCKCHAIN", "REMOVED", 2⟩,
       ⟨"BLOCKCHAIN", "EXISTING", 3⟩] "BLOCKCHAIN" =
      some { added := 1, removed := 0, existing := 3 } ∧
    buildSummaries
      [⟨"BLOCKCHAIN", "ADDED", 1⟩, ⟨"BLOCKCHAIN", "REMOVED", 2⟩,
       ⟨"BLOCKCHAIN", "EXISTING", 3⟩] "BLOCKCHAIN" ≠
      some { added := 1, removed := 2, existing := 3 } := by
  decide

/-- C2: the code evaluated at the failing input. With validators registered
only for "optimism" and "mainnet", an item on network "goerli" carrying the
tag "eoa" makes `this.validators[network]` undefined, so the first tag
check throws a TypeError that aborts the whole validate run: no
UnsupportedNetworkError is recorded anywhere, and the second item — which
on its own yields a failure and a PR comment — is never processed. -/
theorem validate_unregistered_network_typeError :
    validateOp (some "o") (some "m")
      (fun _ => liftV (pvConst false)) (fun _ => liftV (pvConst false))
      [⟨"0x1", ["eoa"], ["goerli"]⟩, ⟨"0x2", ["eoa"], ["mainnet"]⟩] =
      Except.error "TypeError: Cannot read properties of undefined" ∧
    validateOp (some "o") (some "m")
      (fun _ => liftV (pvConst false)) (fun _ => liftV (pvConst false))
      [⟨"0x2", ["eoa"], ["mainnet"]⟩] =
      Except.ok ⟨[⟨"0x2", "is not an EOA"⟩], true⟩ :=
  ⟨rfl, rfl⟩

/-- C3 counterexample: an error thrown by a validator call while processing
the first item aborts the run — the returned value is the raised error, not
a failure list — even though the second item, processed alone, produces a
validation failure. -/
theorem runValidation_error_aborts_cex :
    runValidation vRegMixed
      [⟨"0xA", ["eoa"], ["optimism"]⟩, ⟨"0xDEF", ["contract"], ["mainnet"]⟩] =
      Except.error "RPC failure" ∧
    runValidation vRegMixed [⟨"0xDEF", ["contract"], ["mainnet"]⟩] =
      Except.ok [⟨"0xDEF", "is not a Contract"⟩] :=
  ⟨rfl, rfl⟩

/-- C4 counterexample: two registries that differ only in WHICH network's
`isContract` fails produce identical failure lists for the same item, so a
produced failure cannot carry the network; it records the address and the
reason only. -/
theorem validation_failure_lacks_network_cex :
    runValidation vRegFailOpt [itemDEF] = runValidation vRegFailMain [itemDEF] ∧
    runValidation vRegFailOpt [itemDEF] =
      Except.ok [⟨"0xDEF", "is not a Contract"⟩] ∧
    pvContractFalse.isContract "0xDEF" = false ∧
    (pvConst true).isContract "0xDEF" = true :=
  ⟨rfl, rfl, rfl, rfl⟩

/-- C6 counterexample: the failure list returned by the validation loop is
neither sorted by address-then-reason (a failing "0xb" item listed before a
failing "0xa" item keeps that order) nor duplicate-free (one item failing
the same check on two networks yields two identical entries). -/
theorem failures_unsorted_dup_cex :
    runValidation vRegFalse
      [⟨"0xb", ["eoa"], ["mainnet"]⟩, ⟨"0xa", ["eoa"], ["mainnet"]⟩] =
      Except.ok [⟨"0xb", "is not an EOA"⟩, ⟨"0xa", "is not an EOA"⟩] ∧
    ¬ List.Pairwise failureLe
        [(⟨"0xb", "is not an EOA"⟩ : ValidationError),
         ⟨"0xa", "is not an EOA"⟩] ∧
    runValidation vRegFalse [⟨"0xa", ["eoa"], ["mainnet", "optimism"]⟩] =
      Except.ok [⟨"0xa", "is not an EOA"⟩, ⟨"0xa", "is not an EOA"⟩] ∧
    ¬ List.Nodup
        [(⟨"0xa", "is not an EOA"⟩ : ValidationError),
         ⟨"0xa", "is not an EOA"⟩] := by
  refine ⟨rfl, ?_, rfl, ?_⟩ <;> decide

/-- C8: the project counts of the list-changes comment report removed as
the constant 0, added as the length of `changes.projects` regardless of the
statuses those rows carry, and unchanged as the number of rows returned by
the `unchanged_projects` query — e.g. one row whose `total` field is 5 is
reported as 1, not 5. -/
theorem list_project_counts_spec (u : List UnchangedProjectRow)
    (c : List ProjectSummary) :
    listProjectCounts u c = ⟨c.length, 0, u.length⟩ ∧
    (listProjectCounts [⟨5⟩] []).unchanged = 1 := by
  constructor
  · unfold listProjectCounts
    cases u with
    | nil => rfl
    | cons h t => simp
  · rfl

/-- C9 counterexample: with OPTIMISM_RPC_URL set to the empty string (a set
variable, since `process.env` holds it as a string) and MAINNET_RPC_URL set
to a non-empty URL, `loadValidators` still throws "RPC URLs are required to
do validation", because the source tests JavaScript truthiness (`!rpc`),
not presence. -/
theorem loadValidators_empty_string_cex :
    loadValidators (some "") (some "https://rpc.example")
      (fun _ => liftV (pvConst true)) (fun _ => liftV (pvConst true)) =
      Except.error "RPC URLs are required to do validation" ∧
    (some "" : Option String).isSome = true :=
  ⟨rfl, rfl⟩

lemma validateNetwork_lift (V : String → Option Validator) (p : PureValidator)
    (item : ValidationItem) (n : String) (h : V n = some (liftV p)) :
    validateNetwork V item n = Except.ok (pureNetworkFailures p item) := by
  unfold validateNetwork runTagCheck callPred pureNetworkFailures
  rw [h]
  by_cases he : "eoa" ∈ item.tags <;>
    by_cases hc : "contract" ∈ item.tags <;>
      by_cases hd : "deployer" ∈ item.tags <;>
        simp [he, hc, hd, liftV] <;>
          cases p.isEOA item.address <;>
            cases p.isContract item.address <;>
              cases p.isDeployer item.address <;> simp [he, hc, hd]

/-- C4 (amended): over a network whose registered validator resolves all
its calls, exactly the tag-matched predicates decide the outcome — each
predicate returning false contributes exactly one failure carrying the
address and the matching reason ("is not an EOA" / "is not a Contract" /
"is not a Deployer"), in source order, and the failure record carries no
network; when none of the three tags is present on the item, no predicate
is consulted and no failure is produced whatever validator is registered. -/
theorem validateNetwork_exact_failures (V : String → Option Validator)
    (p : PureValidator) (item : ValidationItem) (n : String)
    (h : V n = some (liftV p)) :
    validateNetwork V item n = Except.ok (pureNetworkFailures p item) ∧
    (∀ (W : String → Option Validator),
      "eoa" ∉ item.tags → "contract" ∉ item.tags → "deployer" ∉ item.tags →
      validateNetwork W item n = Except.ok []) := by
  refine ⟨validateNetwork_lift V p item n h, ?_⟩
  intro W he hc hd
  unfold validateNetwork runTagCheck
  simp [he, hc, hd]

theorem validateNetwork_exact_failures_wit :
    validateNetwork vRegFailOpt itemDEF "optimism" =
      Except.ok (pureNetworkFailures pvContractFalse itemDEF) :=
  (validateNetwork_exact_failures vRegFailOpt pvContractFalse itemDEF
    "optimism" rfl).1

/-- C3 (amended): the items are processed strictly in sequence: the run
over a concatenation of item lists is the bind of the runs over the parts,
so predicate calls that merely resolve to false never abort later items and
all their failures are concatenated into the returned list, while an error
thrown by a validator call aborts the remaining items and surfaces as the
raised error instead of a failure list. -/
theorem runValidation_append (V : String → Option Validator)
    (xs ys : List ValidationItem) :
    runValidation V (xs ++ ys) =
      Except.bind (runValidation V xs) (fun a =>
        Except.bind (runValidation V ys) (fun b => Except.ok (a ++ b))) ∧
    (∀ e, runValidation V xs = Except.error e →
      runValidation V (xs ++ ys) = Except.error e) ∧
    (∀ a b, runValidation V xs = Except.ok a →
      runValidation V ys = Except.ok b →
      runValidation V (xs ++ ys) = Except.ok (a ++ b)) := by
  have main : runValidation V (xs ++ ys) =
      Except.bind (runValidation V xs) (fun a =>
        Except.bind (runValidation V ys) (fun b => Except.ok (a ++ b))) := by
    induction xs with
    | nil =>
        cases hy : runValidation V ys <;>
          simp [runValidation, Except.bind, hy]
    | cons i rest ih =>
        cases hi : validateItem V i with
        | error e => simp [runValidation, hi, Except.bind]
        | ok fs =>
            cases hr : runValidation V rest with
            | error e =>
                simp_all [runValidation, Except.bind]
            | ok rs =>
                cases hy : runValidation V ys <;>
                  simp_all [runValidation, Except.bind, List.append_assoc]
  refine ⟨main, ?_, ?_⟩
  · intro e he
    rw [main, he]
    rfl
  · intro a b ha hb
    rw [main, ha]
    simp [Except.bind, hb]

theorem runValidation_append_wit :
    runValidation vRegMixed
      ([⟨"0xDEF", ["contract"], ["mainnet"]⟩] ++
        [⟨"0xDEF", ["contract"], ["mainnet"]⟩]) =
      Except.ok ([⟨"0xDEF", "is not a Contract"⟩] ++
        [⟨"0xDEF", "is not a Contract"⟩]) :=
  (runValidation_append vRegMixed _ _).2.2 _ _ rfl rfl

lemma validateItemNetworks_pureReg (P : String → Option PureValidator)
    (item : ValidationItem) (ns : List String)
    (h : ∀ n ∈ ns, (P n).isSome = true) :
    validateItemNetworks (fun n => (P n).map liftV) item ns =
      Except.ok (pureItemFailures P item ns) := by
  induction ns with
  | nil => rfl
  | cons n rest ih =>
      obtain ⟨p, hp⟩ := Option.isSome_iff_exists.mp (h n (List.mem_cons_self n rest))
      have h1 : (fun m => (P m).map liftV) n = some (liftV p) := by
        show (P n).map liftV = some (liftV p)
        rw [hp]
        rfl
      have h2 := ih (fun m hm => h m (List.mem_cons_of_mem _ hm))
      have h3 := validateNetwork_lift (fun m => (P m).map liftV) p item n h1
      simp only [validateItemNetworks, pureItemFailures, h3, h2, hp]

/-- C6 (amended): under validators whose calls all resolve, the final
failure list is deterministic and fully fixed by program order — items in
list order, each item's networks in order, tags in source order (eoa,
contract, deployer) — with every failing check contributing its own entry;
the list is NOT deduplicated and NOT sorted by address and reason. -/
theorem runValidation_pure_program_order (P : String → Option PureValidator)
    (items : List ValidationItem)
    (h : ∀ it ∈ items, ∀ n ∈ it.networks, (P n).isSome = true) :
    runValidation (fun n => (P n).map liftV) items =
      Except.ok (pureFailures P items) := by
  induction items with
  | nil => rfl
  | cons it rest ih =>
      have h1 := validateItemNetworks_pureReg P it it.networks
        (h it (List.mem_cons_self it rest))
      have h2 := ih (fun x hx => h x (List.mem_cons_of_mem _ hx))
      simp only [runValidation, validateItem, pureFailures, h1, h2]

theorem runValidation_pure_program_order_wit :
    runValidation (fun n => (pRegMainFalse n).map liftV)
      [⟨"0xa", ["eoa"], ["mainnet"]⟩] =
      Except.ok [⟨"0xa", "is not an EOA"⟩] :=
  (runValidation_pure_program_order pRegMainFalse
    [⟨"0xa", ["eoa"], ["mainnet"]⟩] (by decide)).trans rfl

/-- C7: a blockchain row is in the to-validate selection iff it is a
classified row and at least one of its `address_status`, `network_status`,
`network_tag_status` is ADDED; consequently a row whose only changed status
is REMOVED is never selected for validation. -/
theorem selectForValidation_mem_iff (rows : List BlockchainStatus)
    (r : BlockchainStatus) :
    r ∈ selectForValidation rows ↔
      r ∈ rows ∧ (r.address_status = "ADDED" ∨ r.network_status = "ADDED" ∨
        r.network_tag_status = "ADDED") := by
  simp [selectForValidation, List.mem_filter, or_assoc]

theorem selectForValidation_removed_only_not_selected :
    rowRemovedOnly ∉ selectForValidation [rowRemovedOnly] := by
  intro hmem
  have h := (selectForValidation_mem_iff [rowRemovedOnly] rowRemovedOnly).mp hmem
  exact absurd h.2 (by decide)

/-- C9 (amended): `validate` first requires both RPC-URL environment
variables to be set to non-empty (truthy) values and throws "RPC URLs are
required to do validation" before any validator call when either is
missing or empty; when both are truthy, validators are registered for
exactly the two networks "optimism" and "mainnet" and no other. -/
theorem loadValidators_truthy_spec (o m : Option String)
    (vO vM : String → Validator) :
    (truthy o = false ∨ truthy m = false →
      loadValidators o m vO vM =
        Except.error "RPC URLs are required to do validation" ∧
      ∀ items, validateOp o m vO vM items =
        Except.error "RPC URLs are required to do validation") ∧
    (truthy o = true → truthy m = true →
      ∃ V, loadValidators o m vO vM = Except.ok V ∧
        V "optimism" = some (vO (o.getD "")) ∧
        V "mainnet" = some (vM (m.getD "")) ∧
        ∀ n, n ≠ "optimism" → n ≠ "mainnet" → V n = none) := by
  constructor
  · intro hor
    have hcond : (!(truthy o) || !(truthy m)) = true := by
      rcases hor with h | h <;> simp [h]
    have hl : loadValidators o m vO vM =
        Except.error "RPC URLs are required to do validation" := by
      simp [loadValidators, hcond]
    refine ⟨hl, fun items => ?_⟩
    unfold validateOp
    rw [hl]
  · intro ho hm
    have hcond : (!(truthy o) || !(truthy m)) = false := by
      simp [ho, hm]
    refine ⟨fun network =>
      if network = "optimism" then some (vO (o.getD ""))
      else if network = "mainnet" then some (vM (m.getD "")) else none,
      ?_, rfl, rfl, ?_⟩
    · simp [loadValidators, hcond]
    · intro n h1 h2
      simp [h1, h2]

theorem loadValidators_truthy_spec_wit :
    loadValidators none (some "x") (fun _ => liftV (pvConst true))
      (fun _ => liftV (pvConst true)) =
      Except.error "RPC URLs are required to do validation" :=
  ((loadValidators_truthy_spec none (some "x") (fun _ => liftV (pvConst true))
    (fun _ => liftV (pvConst true))).1 (Or.inl rfl)).1

lemma validateItemNetworks_covered_true (V : String → Option Validator)
    (hOpt : V "optimism" = some (liftV (pvConst true)))
    (hMain : V "mainnet" = some (liftV (pvConst true)))
    (item : ValidationItem) (ns : List String)
    (hcov : ∀ n ∈ ns, n = "optimism" ∨ n = "mainnet") :
    validateItemNetworks V item ns = Except.ok [] := by
  induction ns with
  | nil => rfl
  | cons n rest ih =>
      have hn : V n = some (liftV (pvConst true)) := by
        rcases hcov n (List.mem_cons_self n rest) with h | h <;> rw [h] <;>
          assumption
      have h3 := validateNetwork_lift V (pvConst true) item n hn
      have h4 : pureNetworkFailures (pvConst true) item = [] := by
        simp [pureNetworkFailures, pvConst]
      rw [h4] at h3
      have h5 := ih (fun x hx => hcov x (List.mem_cons_of_mem _ hx))
      simp [validateItemNetworks, h3, h5]

lemma runValidation_covered_true (V : String → Option Validator)
    (hOpt : V "optimism" = some (liftV (pvConst true)))
    (hMain : V "mainnet" = some (liftV (pvConst true)))
    (items : List ValidationItem)
    (hcov : ∀ it ∈ items, ∀ n ∈ it.networks, n = "optimism" ∨ n = "mainnet") :
    runValidation V items = Except.ok [] := by
  induction items with
  | nil => rfl
  | cons it rest ih =>
      have h1 := validateItemNetworks_covered_true V hOpt hMain it it.networks
        (hcov it (List.mem_cons_self it rest))
      have h2 := ih (fun x hx => hcov x (List.mem_cons_of_mem _ hx))
      simp [runValidation, validateItem, h1, h2]

/-- C10: whenever the validate operation completes, the validation-errors
comment is posted iff the collected failure list is non-empty; and under
the same environment, with validators whose every predicate resolves
truthily and every item network registered, the operation completes
without error, collects no failures, and posts no comment. -/
theorem validate_comment_iff_failures (o m : Option String)
    (vO vM : String → Validator) (items : List ValidationItem)
    (r : ValidateResult)
    (hok : validateOp o m vO vM items = Except.ok r) :
    (r.commented = true ↔ r.validationErrors ≠ []) ∧
    (∀ items', (∀ it ∈ items', ∀ n ∈ it.networks,
        n = "optimism" ∨ n = "mainnet") →
      validateOp o m (fun _ => liftV (pvConst true))
        (fun _ => liftV (pvConst true)) items' = Except.ok ⟨[], false⟩) := by
  have hcond : (!(truthy o) || !(truthy m)) = false := by
    cases h : (!(truthy o) || !(truthy m)) with
    | false => rfl
    | true =>
        unfold validateOp at hok
        simp [loadValidators, h] at hok
  constructor
  · unfold validateOp at hok
    split at hok
    · exact Except.noConfusion hok
    · split at hok
      · exact Except.noConfusion hok
      · rename_i errs hr
        have hrl : (⟨errs, errs.length != 0⟩ : ValidateResult) = r :=
          Except.ok.inj hok
        rw [← hrl]
        simp [bne_iff_ne, List.length_eq_zero]
  · intro items' hcov
    have hrun := runValidation_covered_true
      (fun network =>
        if network = "optimism" then
          some ((fun _ => liftV (pvConst true)) (o.getD ""))
        else if network = "mainnet" then
          some ((fun _ => liftV (pvConst true)) (m.getD ""))
        else none) rfl rfl items' hcov
    unfold validateOp
    simp only [loadValidators, hcond, Bool.false_eq_true, if_false, hrun]
    rfl

theorem validate_comment_iff_failures_wit :
    ((⟨[], false⟩ : ValidateResult).commented = true ↔
      (⟨[], false⟩ : ValidateResult).validationErrors ≠ []) :=
  (validate_comment_iff_failures (some "o") (some "m")
    (fun _ => liftV (pvConst true)) (fun _ => liftV (pvConst true))
    [⟨"0xa", ["eoa"], ["mainnet"]⟩] ⟨[], false⟩ rfl).1

lemma classifyKey_self (ks : List String) (k : String) :
    classifyKey ks ks k = "EXISTING" := by
  simp [classifyKey]

lemma classifySnapshot_self (ks : List String) :
    classifySnapshot ks ks =
      ((ks ++ ks).dedup).map (fun k => (k, "EXISTING")) := by
  simp [classifySnapshot, classifyKey_self]

lemma buildSummaries_single (row : SummaryRow) (t' : String) :
    buildSummaries [row] t' =
      if t' = row.type then
        some ⟨if row.status = "ADDED" then row.count else 0,
          if row.status = "REMOVED" then row.count else 0,
          if row.status = "EXISTING" then row.count else 0⟩
      else none := by
  simp [buildSummaries, summarizeRow, updateMap]

lemma filter_status_map (l : List String) (st : String) :
    ((l.map (fun k => (k, "EXISTING"))).filter (fun p => p.2 == st)) =
      if ("EXISTING" == st) then l.map (fun k => (k, "EXISTING")) else [] := by
  induction l with
  | nil => simp
  | cons a tl ih =>
      cases h : ("EXISTING" == st) <;>
        simp only [h] at ih <;>
          simp [List.filter_cons, h, ih]

lemma summaryRowsFor_self (ks : List String) (t : String) :
    summaryRowsFor t (classifySnapshot ks ks) =
      if ((ks ++ ks).dedup).length = 0 then []
      else [⟨t, "EXISTING", ((ks ++ ks).dedup).length⟩] := by
  rw [classifySnapshot_self]
  generalize (ks ++ ks).dedup = l
  unfold summaryRowsFor
  simp only [List.filterMap_cons, List.filterMap_nil, filter_status_map]
  by_cases hl : l.length = 0 <;>
    simp [hl, List.length_map]

/-- C5: diffing a snapshot against itself classifies every row as EXISTING
(spec-modelled classifier over any key population), and the per-type
summary built by the source's aggregation loop from those rows reports
added 0 and removed 0 for every type looked up. -/
theorem diff_self_existing_and_zero_counts (ks : List String) (t t' : String) :
    (classifySnapshot ks ks).all (fun p => p.2 == "EXISTING") = true ∧
    ((buildSummaries (summaryRowsFor t (classifySnapshot ks ks)) t').map
      Summary.added).getD 0 = 0 ∧
    ((buildSummaries (summaryRowsFor t (classifySnapshot ks ks)) t').map
      Summary.removed).getD 0 = 0 := by
  refine ⟨?_, ?_, ?_⟩
  · rw [classifySnapshot_self]
    simp [List.all_eq_true]
  all_goals
    rw [summaryRowsFor_self]
    by_cases hl : ((ks ++ ks).dedup).length = 0
    · simp [hl, buildSummaries]
    · rw [if_neg hl, buildSummaries_single]
      by_cases ht : t' = t <;> simp [ht]
